import Mathlib

/-
A verification development for the execution-context state machine of a local
CI-workflow engine (package `ghx/context`, file `execution.go`, together with
the expression-variable provider in `internal/gctx/helpers.go`).

Modelling conventions:

* Go `map[string]string` values are modelled as association lists with unique
  keys (`SMap`); a write replaces an existing key in place or appends a new
  one.  The list order is a representation artifact (Go maps are unordered);
  the key→value content is what the theorems talk about, and folds that write
  distinct keys produce the same content whatever the Go iteration order.

* Go maps are reference values.  The one place where this is observable in the
  source is the environment context: `SetWorkflow` executes
  `c.Env = wr.Workflow.Env`, after which `c.Env[k] = v` in `SetJob`/`SetStep`
  mutates the workflow-declared map in place, and `UnsetStep`/`UnsetJob`
  "restore" `c.Env` by re-reading that same map.  To keep this behaviour
  observable we model the string-map heap explicitly: `Heap` is a store of
  `SMap` cells and `Ref` is an index into it; `Context.env` and
  `Workflow.env` hold such references.  All other maps in the source are only
  ever read, rebound wholesale, or mutated while un-aliased, so they are
  modelled as plain values; a Go nil map and an empty map are both `[]`.

* The active `WorkflowRun`/`JobRun`/`StepRun` are pointers in Go with a single
  owner inside the context, so they are modelled as `Option` values threaded
  functionally.

* Report persistence goes through an external file writer; we model the
  persistence boundary by having the `Unset*` operations additionally return
  the list of file names they write (contents are not modelled; write failures
  are logged and swallowed by the source and do not affect state).

* Go dereference of a nil pointer (e.g. `UnsetJob` when no job is active) has
  no defined result; operations that would dereference nil return `none`.
-/

/-! ## Sorted association maps (the value of one Go `map[string]string`, or a
Go map with any value type) -/

/-- Look up a key in an association list. -/
def alistGet? {α : Type} : List (String × α) → String → Option α
  | [], _ => none
  | (k', v) :: rest, k => if k = k' then some v else alistGet? rest k

/-- Insert or overwrite a key (last write wins, Go map write `m[k] = v`):
replaces an existing binding in place, appends a new one. -/
def alistSet {α : Type} : List (String × α) → String → α → List (String × α)
  | [], k, v => [(k, v)]
  | (k', v') :: rest, k, v =>
    if k = k' then (k, v) :: rest
    else (k', v') :: alistSet rest k v

/-- Content of one Go `map[string]string`. -/
abbrev SMap := List (String × String)

/-! ## A heap of string maps, to model Go map reference semantics where the
source mutates a shared map in place (the `Env` context). -/

/-- Reference to a string map cell. -/
abbrev Ref := Nat

/-- Store of `map[string]string` cells. -/
abbrev Heap := List SMap

/-- Dereference (a dangling reference reads as the empty map). -/
def Heap.deref (h : Heap) (r : Ref) : SMap := h.getD r []

/-- Write one key through a reference: Go `m[k] = v` on the referenced map. -/
def Heap.setKey (h : Heap) (r : Ref) (k v : String) : Heap :=
  h.set r (alistSet (h.deref r) k v)

/-- Write every entry of `m` through a reference: Go
`for k, v := range m { dst[k] = v }`. -/
def Heap.mergeInto (h : Heap) (r : Ref) (m : SMap) : Heap :=
  m.foldl (fun acc kv => acc.setKey r kv.1 kv.2) h

/-! ## Core data model (`ghx/core`), as used by `ghx/context/execution.go`.

`Conclusion` and `StepStage` are Go string types (`type Conclusion string`);
their zero value is the empty string, which is why they are modelled as
`String` with named constants rather than as a closed inductive type. -/

/-- Result value of a run unit (Go `core.Conclusion`, a string type). -/
abbrev Conclusion := String

def ConclusionSuccess : Conclusion := "success"
def ConclusionFailure : Conclusion := "failure"
def ConclusionCancelled : Conclusion := "cancelled"
def ConclusionSkipped : Conclusion := "skipped"
def ConclusionNeutral : Conclusion := "neutral"

/-- The closed enumeration of documented conclusion values (spec §3). -/
def conclusionValues : List Conclusion :=
  [ConclusionSuccess, ConclusionFailure, ConclusionCancelled,
   ConclusionSkipped, ConclusionNeutral]

/-- Lifecycle stage of a step (Go `core.StepStage`, a string type). -/
abbrev StepStage := String

def StepStageSetup : StepStage := "setup"
def StepStagePre : StepStage := "pre"
def StepStageMain : StepStage := "main"
def StepStagePost : StepStage := "post"
def StepStageComplete : StepStage := "complete"

/-- Step definition (`ghx/core/step.go`, struct `Step`). -/
structure Step where
  id : String
  ifCond : String
  name : String
  uses : String
  environment : SMap
  withInputs : SMap
  run : String
  shell : String
  workingDirectory : String
  continueOnError : Bool
  timeoutMinutes : Nat
  deriving DecidableEq, Repr

/-- Zero value of `Step`. -/
def Step.zero : Step :=
  ⟨"", "", "", "", [], [], "", "", "", false, 0⟩

/-- One step execution at one lifecycle stage (`ghx/core/step.go`, struct
`StepRun`). -/
structure StepRun where
  step : Step
  stage : StepStage
  conclusion : Conclusion
  outcome : Conclusion
  outputs : SMap
  state : SMap
  summary : String
  environment : SMap
  path : List String
  deriving DecidableEq, Repr

/-- Job definition: the fields of `core.Job` read by `execution.go`
(ID, declared env, needed job IDs). -/
structure Job where
  id : String
  env : SMap
  needs : List String
  deriving DecidableEq, Repr

/-- One job execution (`core.JobRun`): job definition, realized matrix
values, conclusion/outcome, outputs, and the step-run history. -/
structure JobRun where
  job : Job
  matrix : SMap
  conclusion : Conclusion
  outcome : Conclusion
  outputs : SMap
  steps : List StepRun
  deriving DecidableEq, Repr

/-- Zero value of `JobRun`: what a Go read of a missing key from
`map[string]core.JobRun` yields. -/
def JobRun.zero : JobRun :=
  ⟨⟨"", [], []⟩, [], "", "", [], []⟩

/-- Content of the workflow's job map `map[string]core.JobRun`. -/
abbrev JobsMap := List (String × JobRun)

/-- Go map read `Jobs[id]`: the zero `JobRun` when the key is absent. -/
def jobsGet (m : JobsMap) (id : String) : JobRun :=
  (alistGet? m id).getD JobRun.zero

/-- Workflow definition: the fields of `core.Workflow` read by
`execution.go` (name, path, declared env).  The declared env is a map
reference. -/
structure Workflow where
  name : String
  path : String
  env : Ref
  deriving DecidableEq, Repr

/-- One workflow execution (`core.WorkflowRun`). -/
structure WorkflowRun where
  runID : String
  runNumber : String
  runAttempt : String
  retentionDays : String
  workflow : Workflow
  jobs : JobsMap
  conclusion : Conclusion
  deriving DecidableEq, Repr

/-! ## Variable contexts (`ghx/context` context types used by
`execution.go`). -/

/-- Fields of the github context written or read by `execution.go`. -/
structure GithubContext where
  repository : String
  ref : String
  sha : String
  runID : String
  runNumber : String
  runAttempt : String
  retentionDays : String
  workflow : String
  workflowRef : String
  workflowSHA : String
  job : String
  deriving DecidableEq, Repr

def GithubContext.zero : GithubContext :=
  ⟨"", "", "", "", "", "", "", "", "", "", ""⟩

/-- Job context: the job-level status variable. -/
structure JobContext where
  status : Conclusion
  deriving DecidableEq, Repr

/-- Per-step-ID summary visible to later steps' expressions
(`core.StepContext`). -/
structure StepContext where
  state : SMap
  summary : String
  outputs : SMap
  outcome : Conclusion
  conclusion : Conclusion
  deriving DecidableEq, Repr

/-- Zero value of `StepContext` (Go `StepContext{}`). -/
def StepContext.zero : StepContext := ⟨[], "", [], "", ""⟩

/-- Map of `StepContext` by step ID. -/
abbrev StepsContext := List (String × StepContext)

/-- Snapshot of one dependency job (`NeedContext`): its conclusion and
outputs. -/
structure NeedContext where
  result : Conclusion
  outputs : SMap
  deriving DecidableEq, Repr

/-- Map of `NeedContext` by job ID. -/
abbrev NeedsContext := List (String × NeedContext)

/-- Matrix context: realized matrix key/value pairs. -/
abbrev MatrixContext := SMap

/-- The active run pointers owned by the context (`ExecutionContext`). -/
structure ExecutionContext where
  workflowRun : Option WorkflowRun
  jobRun : Option JobRun
  stepRun : Option StepRun
  deriving DecidableEq, Repr

/-- The execution context aggregate (`ghx/context` `Context`), restricted to
the fields touched by `execution.go`.  `env` is a reference into the string-map
heap, mirroring Go's `c.Env map[string]string`. -/
structure Context where
  github : GithubContext
  env : Ref
  execution : ExecutionContext
  job : JobContext
  steps : StepsContext
  needs : NeedsContext
  matrix : MatrixContext
  deriving DecidableEq, Repr

/-- Zero-valued context, before any `SetWorkflow`. -/
def Context.init : Context :=
  ⟨GithubContext.zero, 0, ⟨none, none, none⟩, ⟨""⟩, [], [], []⟩

/-- Whole-machine state: the string-map heap plus the context. -/
structure State where
  heap : Heap
  ctx : Context
  deriving DecidableEq, Repr

/-- Resolved content of the layered `Env` context. -/
def State.envMap (s : State) : SMap := s.heap.deref s.ctx.env

/-- Conclusion of the installed workflow run, when one is installed. -/
def State.workflowConclusion (s : State) : Option Conclusion :=
  s.ctx.execution.workflowRun.map (·.conclusion)

/-- Opaque run-result status handed to the `Unset*` calls; folded into report
files and not interpreted by the state machine (spec §6). -/
abbrev RunResult := String

/-- State-discipline error strings returned by the mutators (`errors.New`
literals in `execution.go`); the spec names them `NoActiveWorkflow`,
`NoActiveJob`, `NoActiveStep`. -/
def errNoActiveWorkflow : String := "no workflow is set"

def errNoActiveJob : String := "no job is set"

def errNoActiveStep : String := "no step is set"

/-! ## The state-machine operations (`ghx/context/execution.go`).

Each Go method on `*Context` becomes a function on `State`.  Methods that
return `error` become functions returning `Option String × State` (the error,
if any, together with the state as left by the call — Go's early returns leave
the receiver untouched).  `Unset*` methods return `Option (State × List
String)`: the written file names alongside the new state, or `none` where the
Go code would dereference a nil run pointer. -/

/-- The helper `syncWithEnvValues` called by `SetWorkflow` is defined outside
the embedded sources; it reconciles the github context with ambient process
environment variables.  The operations take it as an explicit parameter
`sync : GithubContext → GithubContext` so every theorem below holds for an
arbitrary reconciliation. -/
def SetWorkflow (sync : GithubContext → GithubContext) (s : State)
    (wr : WorkflowRun) : Option String × State :=
  -- c.Execution = ExecutionContext{WorkflowRun: wr}
  let wr := { wr with conclusion := ConclusionSuccess }
  -- the github run metadata seeded from the workflow run
  let g := s.ctx.github
  let g := { g with
    runID := wr.runID
    runNumber := wr.runNumber
    runAttempt := wr.runAttempt
    retentionDays := wr.retentionDays
    workflow := wr.workflow.name
    workflowRef := g.repository ++ "/" ++ wr.workflow.path ++ "@" ++ g.ref
    workflowSHA := g.sha }
  let g := sync g
  -- c.Env = wr.Workflow.Env (a map reference copy)
  (none, { s with ctx := { s.ctx with
    execution := ⟨some wr, none, none⟩
    github := g
    env := wr.workflow.env } })

/-- Go `UnsetWorkflow`: builds and writes the workflow report and copies the
workflow source file; dereferences the active workflow run. -/
def UnsetWorkflow (s : State) (_result : RunResult) :
    Option (State × List String) :=
  match s.ctx.execution.workflowRun with
  | none => none
  | some _ => some (s, ["workflow_run.json", "workflow.yaml"])

/-- Go `SetJob`. -/
def SetJob (s : State) (jr : JobRun) : Option String × State :=
  match s.ctx.execution.workflowRun with
  | none => (some errNoActiveWorkflow, s)
  | some wr =>
    -- c.Execution.JobRun = jr; c.Execution.WorkflowRun.Jobs[jr.Job.ID] = *jr
    let wr := { wr with jobs := alistSet wr.jobs jr.job.id jr }
    let g := { s.ctx.github with job := jr.job.id }
    -- for k, v := range jr.Job.Env { c.Env[k] = v }
    let heap := s.heap.mergeInto s.ctx.env jr.job.env
    -- matrix context only if the job declares matrix values
    let matrix := if jr.matrix.length > 0 then jr.matrix else s.ctx.matrix
    -- c.Job = JobContext{Status: c.Execution.WorkflowRun.Conclusion}
    let job : JobContext := ⟨wr.conclusion⟩
    -- needs snapshot from the (already stored) jobs of the workflow run
    let needs := jr.job.needs.foldl
      (fun acc needID =>
        let need := jobsGet wr.jobs needID
        alistSet acc need.job.id ⟨need.conclusion, need.outputs⟩)
      ([] : NeedsContext)
    (none, { heap := heap, ctx := { s.ctx with
      execution := { s.ctx.execution with
        workflowRun := some wr, jobRun := some jr }
      github := g
      matrix := matrix
      job := job
      steps := ([] : StepsContext)
      needs := needs } })

/-- Go `UnsetJob`: stores the final job run back into the workflow's job map,
applies the one-shot workflow-conclusion downgrade, reverts `Env` to the
workflow-declared map, clears the matrix context, writes the job report, and
clears the active job run. -/
def UnsetJob (s : State) (_result : RunResult) :
    Option (State × List String) :=
  match s.ctx.execution.jobRun, s.ctx.execution.workflowRun with
  | some jr, some wr =>
    -- c.Execution.WorkflowRun.Jobs[jr.Job.ID] = *jr
    let wr := { wr with jobs := alistSet wr.jobs jr.job.id jr }
    -- one-shot workflow conclusion downgrade
    let wr :=
      if wr.conclusion = ConclusionSuccess ∧ jr.conclusion ≠ ConclusionSuccess
      then { wr with conclusion := jr.conclusion }
      else wr
    let g := { s.ctx.github with job := "" }
    -- c.Env = c.Execution.WorkflowRun.Workflow.Env (a map reference copy)
    some ({ s with ctx := { s.ctx with
      execution := { s.ctx.execution with
        workflowRun := some wr, jobRun := none }
      github := g
      env := wr.workflow.env
      matrix := ([] : MatrixContext) } },
      ["job_run.json"])
  | _, _ => none

/-- Go `SetJobResults`. -/
def SetJobResults (s : State) (conclusion outcome : Conclusion)
    (outputs : SMap) : Option String × State :=
  match s.ctx.execution.jobRun with
  | none => (some errNoActiveJob, s)
  | some jr =>
    let jr := { jr with
      conclusion := conclusion, outcome := outcome, outputs := outputs }
    (none, { s with ctx := { s.ctx with
      execution := { s.ctx.execution with jobRun := some jr }
      job := ⟨conclusion⟩ } })

/-- Go `SetStep`. -/
def SetStep (s : State) (sr : StepRun) : Option String × State :=
  match s.ctx.execution.jobRun with
  | none => (some errNoActiveJob, s)
  | some _ =>
    -- for k, v := range sr.Step.Environment { c.Env[k] = v }
    let heap := s.heap.mergeInto s.ctx.env sr.step.environment
    (none, { heap := heap, ctx := { s.ctx with
      execution := { s.ctx.execution with stepRun := some sr } } })

/-- Go `UnsetStep`: a no-op when no step run is active; otherwise reverts
`Env` to the workflow-declared map overlaid with the job-declared env, appends
the retiring step run to the job-run history, upserts the `StepContext` for
its step ID with the terminal fields, and — only when the stage is `main` —
writes the step report plus, when a summary is present, the summary file. -/
def UnsetStep (s : State) (_result : RunResult) :
    Option (State × List String) :=
  match s.ctx.execution.stepRun with
  | none => some (s, [])
  | some sr =>
    match s.ctx.execution.workflowRun, s.ctx.execution.jobRun with
    | some wr, some jr =>
      -- c.Env = c.Execution.WorkflowRun.Workflow.Env (a map reference copy),
      -- then overlay the job-declared env through the reference
      let env := wr.workflow.env
      let heap := s.heap.mergeInto env jr.job.env
      -- c.Execution.JobRun.Steps = append(c.Execution.JobRun.Steps, *sr)
      let jr := { jr with steps := jr.steps ++ [sr] }
      -- upsert the step context with the retiring run's terminal fields
      let sc := (alistGet? s.ctx.steps sr.step.id).getD StepContext.zero
      let sc := { sc with
        state := sr.state
        summary := sr.summary
        outputs := sr.outputs
        outcome := sr.outcome
        conclusion := sr.conclusion }
      let steps := alistSet s.ctx.steps sr.step.id sc
      -- only export the result of the main stage
      let writes :=
        if sr.stage = StepStageMain then
          "step_run.json" ::
            (if sr.summary ≠ "" then ["summary.md"] else [])
        else []
      some ({ heap := heap, ctx := { s.ctx with
        execution := { s.ctx.execution with
          jobRun := some jr, stepRun := none }
        env := env
        steps := steps } },
        writes)
    | _, _ => none

/-- Go `SetStepResults`. -/
def SetStepResults (s : State) (conclusion outcome : Conclusion) :
    Option String × State :=
  match s.ctx.execution.stepRun with
  | none => (some errNoActiveStep, s)
  | some sr =>
    let sr := { sr with conclusion := conclusion, outcome := outcome }
    (none, { s with ctx := { s.ctx with
      execution := { s.ctx.execution with stepRun := some sr } } })

/-- Go `SetStepOutput`. -/
def SetStepOutput (s : State) (key value : String) : Option String × State :=
  match s.ctx.execution.stepRun with
  | none => (some errNoActiveStep, s)
  | some sr =>
    let sr := { sr with outputs := alistSet sr.outputs key value }
    (none, { s with ctx := { s.ctx with
      execution := { s.ctx.execution with stepRun := some sr } } })

/-- Go `SetStepSummary`. -/
def SetStepSummary (s : State) (summary : String) : Option String × State :=
  match s.ctx.execution.stepRun with
  | none => (some errNoActiveStep, s)
  | some sr =>
    let sr := { sr with summary := summary }
    (none, { s with ctx := { s.ctx with
      execution := { s.ctx.execution with stepRun := some sr } } })

/-- Go `SetStepState`. -/
def SetStepState (s : State) (key value : String) : Option String × State :=
  match s.ctx.execution.stepRun with
  | none => (some errNoActiveStep, s)
  | some sr =>
    let sr := { sr with state := alistSet sr.state key value }
    (none, { s with ctx := { s.ctx with
      execution := { s.ctx.execution with stepRun := some sr } } })

/-- Go `AddStepPath`. -/
def AddStepPath (s : State) (path : String) : Option String × State :=
  match s.ctx.execution.stepRun with
  | none => (some errNoActiveStep, s)
  | some sr =>
    let sr := { sr with path := sr.path ++ [path] }
    (none, { s with ctx := { s.ctx with
      execution := { s.ctx.execution with stepRun := some sr } } })

/-- Go `SetStepEnv`. -/
def SetStepEnv (s : State) (key value : String) : Option String × State :=
  match s.ctx.execution.stepRun with
  | none => (some errNoActiveStep, s)
  | some sr =>
    let sr := { sr with environment := alistSet sr.environment key value }
    (none, { s with ctx := { s.ctx with
      execution := { s.ctx.execution with stepRun := some sr } } })

/-! ## Expression variable provider (`internal/gctx/helpers.go`,
`(*Context).GetVariable`).

That `Context` lives in a sibling package with its own field set; here it is
`GctxContext`.  Go's `interface{}` return value becomes the sum `VarValue`,
whose constructors record which context value the switch hands back;
`math.Inf(1)` and `math.NaN()` are modelled by the distinguished constructors
`VarValue.infinity` (IEEE positive infinity) and `VarValue.nan`. -/

/-- Runner context fields (from `core.RunnerContext`). -/
structure RunnerContext where
  name : String
  os : String
  arch : String
  temp : String
  toolCache : String
  debug : String
  deriving DecidableEq, Repr

/-- Secrets context: the provider returns its `Data` map. -/
structure SecretsContext where
  data : SMap
  deriving DecidableEq, Repr

/-- Inputs context. -/
abbrev InputsContext := SMap

/-- The fields of `internal/gctx.Context` that its `GetVariable` reads. -/
structure GctxContext where
  github : GithubContext
  runner : RunnerContext
  job : JobContext
  steps : StepsContext
  secrets : SecretsContext
  inputs : InputsContext
  needs : NeedsContext
  matrix : MatrixContext
  deriving DecidableEq, Repr

/-- The value a variable resolves to (Go `interface{}`). -/
inductive VarValue where
  | strMap (m : SMap)
  | github (g : GithubContext)
  | runner (r : RunnerContext)
  | job (j : JobContext)
  | steps (s : StepsContext)
  | secrets (m : SMap)
  | matrix (m : MatrixContext)
  | needs (n : NeedsContext)
  | inputs (m : InputsContext)
  | infinity
  | nan
  deriving DecidableEq, Repr

/-- Go `GetVariable` (`internal/gctx/helpers.go`): the name switch of the
expression variable provider. -/
def GetVariable (c : GctxContext) (name : String) : Except String VarValue :=
  if name = "github" then .ok (.github c.github)
  else if name = "runner" then .ok (.runner c.runner)
  else if name = "env" then .ok (.strMap [])
  else if name = "vars" then .ok (.strMap [])
  else if name = "job" then .ok (.job c.job)
  else if name = "steps" then .ok (.steps c.steps)
  else if name = "secrets" then .ok (.secrets c.secrets.data)
  else if name = "strategy" then .ok (.strMap [])
  else if name = "matrix" then .ok (.matrix c.matrix)
  else if name = "needs" then .ok (.needs c.needs)
  else if name = "inputs" then .ok (.inputs c.inputs)
  else if name = "infinity" then .ok .infinity
  else if name = "nan" then .ok .nan
  else .error ("unknown variable: " ++ name)

/-- The recognized variable names of the provider's switch. -/
def recognizedNames : List String :=
  ["github", "runner", "env", "vars", "job", "steps", "secrets", "strategy",
   "matrix", "needs", "inputs", "infinity", "nan"]

/-! ## Conclusion resolution -/

/-- Modelled from the spec: the conclusion-resolution code (part of the step
task runner) is not among the embedded sources; spec §4.2 defines the pure
function `resolve(outcome, continueOnError) -> conclusion`, where
`continueOnError==true` and `outcome==Failure` yields Success, else the
conclusion equals the outcome. -/
def resolve (outcome : Conclusion) (continueOnError : Bool) : Conclusion :=
  if continueOnError = true ∧ outcome = ConclusionFailure then
    ConclusionSuccess
  else outcome

/-! ## Auxiliary operations and lemmas -/

/-- Models a later direct mutation of a stored `JobRun` record in the
workflow's job map (Go: `wr.Jobs[id] = jr`) — the write that every in-source
mutation path of a job record (`SetJob`, or `SetJobResults` followed by
`UnsetJob`) ultimately performs on the stored record. -/
def updateStoredJob (s : State) (id : String) (jr : JobRun) : State :=
  match s.ctx.execution.workflowRun with
  | none => s
  | some wr =>
    { s with ctx := { s.ctx with
      execution := { s.ctx.execution with
        workflowRun := some { wr with jobs := alistSet wr.jobs id jr } } } }

theorem alistGet?_alistSet_self {α : Type} (m : List (String × α))
    (k : String) (v : α) : alistGet? (alistSet m k v) k = some v := by
  induction m with
  | nil => simp [alistSet, alistGet?]
  | cons hd tl ih =>
    by_cases h : k = hd.1
    · simp [alistSet, alistGet?, h]
    · simp [alistSet, alistGet?, h, ih]

theorem alistGet?_alistSet_ne {α : Type} (m : List (String × α))
    (k k' : String) (v : α) (h : k' ≠ k) :
    alistGet? (alistSet m k v) k' = alistGet? m k' := by
  induction m with
  | nil => simp [alistSet, alistGet?, h]
  | cons hd tl ih =>
    by_cases hk : k = hd.1
    · subst hk
      simp [alistSet, alistGet?, h]
    · by_cases hk' : k' = hd.1
      · simp [alistSet, alistGet?, hk, hk']
      · simp [alistSet, alistGet?, hk, hk', ih]

/-! ## Shared concrete scenarios (workflow env `{A:"1"}` in heap cell 0) -/

namespace Scn

/-- Initial heap: the workflow-declared environment `{A:"1"}` in cell 0. -/
def heap0 : Heap := [[("A", "1")]]

def wf : Workflow := ⟨"demo", "wf.yaml", 0⟩

def wr0 : WorkflowRun := ⟨"1", "1", "1", "90", wf, [], ""⟩

def s0 : State := ⟨heap0, Context.init⟩

/-- After `SetWorkflow` (with the identity env reconciliation). -/
def s1 : State := (SetWorkflow id s0 wr0).2

/-- Job `J` with job-declared env `{B:"2"}`. -/
def jrJ : JobRun := ⟨⟨"J", [("B", "2")], []⟩, [], "", "", [], []⟩

def s2 : State := (SetJob s1 jrJ).2

/-- Step `s1` with step-declared env `{A:"3"}`. -/
def stepS1 : Step := { Step.zero with id := "s1", environment := [("A", "3")] }

/-- The step running at the `main` stage. -/
def srMain : StepRun := ⟨stepS1, StepStageMain, "", "", [], [], "", [], []⟩

/-- The step running at the `pre` stage, with an output `{o:"v"}`. -/
def srPre : StepRun := ⟨stepS1, StepStagePre, "", "", [("o", "v")], [], "", [], []⟩

def s3main : State := (SetStep s2 srMain).2

def s3pre : State := (SetStep s2 srPre).2

/-- Job `J1` retiring with conclusion `failure` (for the first-failure-wins
scenario). -/
def jrJ1 : JobRun := ⟨⟨"J1", [], []⟩, [], "", "", [], []⟩

def c1s2 : State := (SetJob s1 jrJ1).2

def c1s3 : State :=
  (SetJobResults c1s2 ConclusionFailure ConclusionFailure []).2

/-- The workflow-run record active in `c1s3`. -/
def c1wr : WorkflowRun := (c1s3.ctx.execution.workflowRun).getD wr0

/-- The job-run record active in `c1s3`. -/
def c1jr : JobRun := (c1s3.ctx.execution.jobRun).getD jrJ1

def c1s4 : State := ((UnsetJob c1s3 "res").getD (s0, [])).1

/-- Job `J2` retiring second, with conclusion `cancelled`. -/
def jrJ2 : JobRun := ⟨⟨"J2", [], []⟩, [], "", "", [], []⟩

def c1s5 : State := (SetJob c1s4 jrJ2).2

def c1s6 : State :=
  (SetJobResults c1s5 ConclusionCancelled ConclusionCancelled []).2

def c1s7 : State := ((UnsetJob c1s6 "res").getD (s0, [])).1

/-- Dependency job `J1` for the needs-snapshot scenario. -/
def c4jrJ1 : JobRun := ⟨⟨"J1", [], []⟩, [], "", "", [], []⟩

def c4s2 : State := (SetJob s1 c4jrJ1).2

def c4s3 : State :=
  (SetJobResults c4s2 ConclusionSuccess ConclusionSuccess [("x", "v")]).2

def c4s4 : State := ((UnsetJob c4s3 "res").getD (s0, [])).1

/-- Job `J` declaring `needs: [J1]`. -/
def c4jrJ : JobRun := ⟨⟨"J", [], ["J1"]⟩, [], "", "", [], []⟩

def c4s5 : State := (SetJob c4s4 c4jrJ).2

/-- Job whose `needs` names a job ID absent from the workflow's job map. -/
def c10jr : JobRun := ⟨⟨"J", [], ["missing"]⟩, [], "", "", [], []⟩

/-- The workflow-run record active while job `J` runs. -/
def sWr : WorkflowRun := (s2.ctx.execution.workflowRun).getD wr0

def s4main : State := ((UnsetStep s3main "res").getD (s0, [])).1

/-- The files written when retiring the `main`-stage step. -/
def s4mainW : List String := ((UnsetStep s3main "res").getD (s0, [])).2

def s4pre : State := ((UnsetStep s3pre "res").getD (s0, [])).1

/-- The files written when retiring the `pre`-stage step. -/
def s4preW : List String := ((UnsetStep s3pre "res").getD (s0, [])).2

end Scn

/-- Zero-valued provider context. -/
def GctxContext.zero : GctxContext :=
  ⟨GithubContext.zero, ⟨"", "", "", "", "", ""⟩, ⟨""⟩, [], ⟨[]⟩, [], [], []⟩

/-! ## Claims -/

/-- C9: for every `WorkflowRun` passed to it (and every ambient env
reconciliation), `SetWorkflow` succeeds (returns no error) and installs a
workflow run whose `Conclusion` is `success`, regardless of the conclusion
value the argument carried. -/
theorem SetWorkflow_installs_success_conclusion
    (sync : GithubContext → GithubContext) (s : State) (wr : WorkflowRun) :
    (SetWorkflow sync s wr).1 = none ∧
    (SetWorkflow sync s wr).2.workflowConclusion = some ConclusionSuccess :=
  ⟨rfl, rfl⟩

/-- C6: state-discipline preconditions.  `SetJob` with no active workflow run
returns the `NoActiveWorkflow` error; `SetStep` with no active job run returns
the `NoActiveJob` error; `SetStepOutput`, `SetStepResults`, `SetStepState`,
`SetStepEnv` and `AddStepPath` with no active step run return the
`NoActiveStep` error; in every failing case the returned state is the input
state, unchanged. -/
theorem state_discipline_errors :
    (∀ (s : State) (jr : JobRun), s.ctx.execution.workflowRun = none →
       SetJob s jr = (some errNoActiveWorkflow, s)) ∧
    (∀ (s : State) (sr : StepRun), s.ctx.execution.jobRun = none →
       SetStep s sr = (some errNoActiveJob, s)) ∧
    (∀ (s : State) (k v : String), s.ctx.execution.stepRun = none →
       SetStepOutput s k v = (some errNoActiveStep, s)) ∧
    (∀ (s : State) (a b : Conclusion), s.ctx.execution.stepRun = none →
       SetStepResults s a b = (some errNoActiveStep, s)) ∧
    (∀ (s : State) (k v : String), s.ctx.execution.stepRun = none →
       SetStepState s k v = (some errNoActiveStep, s)) ∧
    (∀ (s : State) (k v : String), s.ctx.execution.stepRun = none →
       SetStepEnv s k v = (some errNoActiveStep, s)) ∧
    (∀ (s : State) (p : String), s.ctx.execution.stepRun = none →
       AddStepPath s p = (some errNoActiveStep, s)) := by
  refine ⟨?_, ?_, ?_, ?_, ?_, ?_, ?_⟩
  · intro s jr h
    simp [SetJob, h]
  · intro s sr h
    simp [SetStep, h]
  · intro s k v h
    simp [SetStepOutput, h]
  · intro s a b h
    simp [SetStepResults, h]
  · intro s k v h
    simp [SetStepState, h]
  · intro s k v h
    simp [SetStepEnv, h]
  · intro s p h
    simp [AddStepPath, h]

/-- Witness for C6: against the zero-valued initial state, `SetJob`,
`SetStep` and `SetStepOutput` each fail with the corresponding
state-discipline error and leave the state unchanged. -/
theorem state_discipline_errors_witness :
    ((⟨[], Context.init⟩ : State).ctx.execution.workflowRun = none ∧
     SetJob ⟨[], Context.init⟩ JobRun.zero =
       (some errNoActiveWorkflow, ⟨[], Context.init⟩)) ∧
    ((⟨[], Context.init⟩ : State).ctx.execution.jobRun = none ∧
     SetStep ⟨[], Context.init⟩ Scn.srMain =
       (some errNoActiveJob, ⟨[], Context.init⟩)) ∧
    ((⟨[], Context.init⟩ : State).ctx.execution.stepRun = none ∧
     SetStepOutput ⟨[], Context.init⟩ "k" "v" =
       (some errNoActiveStep, ⟨[], Context.init⟩)) :=
  ⟨⟨rfl, state_discipline_errors.1 ⟨[], Context.init⟩ JobRun.zero rfl⟩,
   ⟨rfl, state_discipline_errors.2.1 ⟨[], Context.init⟩ Scn.srMain rfl⟩,
   ⟨rfl, state_discipline_errors.2.2.1 ⟨[], Context.init⟩ "k" "v" rfl⟩⟩

/-- C5: for every outcome in the closed conclusion enumeration and every
boolean continue-on-error flag, `resolve` yields `success` when the flag is
set and the outcome is `failure`, and yields the outcome itself in every
other case. -/
theorem resolve_conclusion_rule (outcome : Conclusion) (b : Bool)
    (_h : outcome ∈ conclusionValues) :
    (b = true ∧ outcome = ConclusionFailure →
       resolve outcome b = ConclusionSuccess) ∧
    (¬(b = true ∧ outcome = ConclusionFailure) →
       resolve outcome b = outcome) := by
  constructor
  · intro hc
    simp [resolve, hc]
  · intro hc
    simp only [resolve, if_neg hc]

/-- Witness for C5: at `outcome = failure`, `continueOnError = true`, the
resolved conclusion is `success`. -/
theorem resolve_conclusion_rule_witness :
    ConclusionFailure ∈ conclusionValues ∧
    resolve ConclusionFailure true = ConclusionSuccess :=
  ⟨by decide,
   (resolve_conclusion_rule ConclusionFailure true (by decide)).1 ⟨rfl, rfl⟩⟩

/-- C10: `SetJob` for a job whose `Needs` list names a job ID absent from the
workflow's job map still succeeds, and records a needs entry keyed by the
zero-value job's ID — the empty string — holding the zero-value conclusion and
empty outputs, rather than failing or keying the entry by the requested
dependency ID. -/
theorem SetJob_missing_need_zero_entry :
    (SetJob Scn.s1 Scn.c10jr).1 = none ∧
    ((SetJob Scn.s1 Scn.c10jr).2).ctx.needs = [("", ⟨"", []⟩)] ∧
    alistGet? ((SetJob Scn.s1 Scn.c10jr).2).ctx.needs "missing" = none :=
  ⟨rfl, rfl, rfl⟩

/-- C2 (divergence at the claimed input): with workflow env `{A:"1"}`, job env
`{B:"2"}` and step env `{A:"3"}`, the resolved env during the step is
`{A:"3", B:"2"}` as claimed, but immediately after `UnsetStep` the resolved
env is still `{A:"3", B:"2"}` — not the claimed `{A:"1", B:"2"}` — because
`c.Env` aliases the workflow-declared map (`c.Env = wr.Workflow.Env` copies a
map reference), so the step's write already mutated the map `UnsetStep`
"restores" from. -/
theorem UnsetStep_env_alias_leak :
    Scn.s3main.envMap = [("A", "3"), ("B", "2")] ∧
    (UnsetStep Scn.s3main "res").map (fun p => p.1.envMap) =
      some [("A", "3"), ("B", "2")] ∧
    (UnsetStep Scn.s3main "res").map (fun p => p.1.envMap) ≠
      some [("A", "1"), ("B", "2")] :=
  ⟨rfl, rfl, by decide⟩

/-- C1: the workflow-level conclusion is downgraded at most once, by
first-failure-wins over job retirement order.  General part: on `UnsetJob`,
if the workflow conclusion is still `success` and the retiring job's is not,
the workflow conclusion becomes the job's; once the workflow conclusion is not
`success`, any `UnsetJob` leaves it unchanged; a job retiring with `success`
also leaves it unchanged.  Concrete part: J1 retiring with `failure` then J2
retiring with `cancelled` leaves the workflow conclusion at `failure`. -/
theorem UnsetJob_first_failure_wins :
    (∀ (s : State) (wr : WorkflowRun) (jr : JobRun) (r : RunResult)
       (s' : State) (ws : List String),
       s.ctx.execution.workflowRun = some wr →
       s.ctx.execution.jobRun = some jr →
       UnsetJob s r = some (s', ws) →
       (wr.conclusion = ConclusionSuccess ∧ jr.conclusion ≠ ConclusionSuccess →
          s'.workflowConclusion = some jr.conclusion) ∧
       (wr.conclusion ≠ ConclusionSuccess →
          s'.workflowConclusion = some wr.conclusion) ∧
       (jr.conclusion = ConclusionSuccess →
          s'.workflowConclusion = some wr.conclusion)) ∧
    ((UnsetJob Scn.c1s3 "res").isSome = true ∧
     Scn.c1s4.workflowConclusion = some ConclusionFailure ∧
     (Scn.c1s6.ctx.execution.jobRun).map (·.conclusion) =
       some ConclusionCancelled ∧
     (UnsetJob Scn.c1s6 "res").isSome = true ∧
     Scn.c1s7.workflowConclusion = some ConclusionFailure) := by
  constructor
  · intro s wr jr r s' ws h1 h2 h3
    simp only [UnsetJob, h1, h2, Option.some.injEq, Prod.mk.injEq] at h3
    obtain ⟨hA, hB⟩ := h3
    subst hA
    refine ⟨?_, ?_, ?_⟩
    · intro hc
      simp [State.workflowConclusion, if_pos, hc.1, hc.2]
    · intro hc
      simp [State.workflowConclusion, hc]
    · intro hc
      simp [State.workflowConclusion, hc]
  · exact ⟨rfl, rfl, rfl, rfl, rfl⟩

/-- Witness for C1: the general downgrade rule applied to the concrete first
retirement — the workflow conclusion still `success`, J1's conclusion
`failure` — yields workflow conclusion `failure`. -/
theorem UnsetJob_first_failure_wins_witness :
    (Scn.c1s3.ctx.execution.workflowRun = some Scn.c1wr ∧
     Scn.c1s3.ctx.execution.jobRun = some Scn.c1jr ∧
     UnsetJob Scn.c1s3 "res" = some (Scn.c1s4, ["job_run.json"]) ∧
     Scn.c1wr.conclusion = ConclusionSuccess ∧
     Scn.c1jr.conclusion ≠ ConclusionSuccess) ∧
    Scn.c1s4.workflowConclusion = some Scn.c1jr.conclusion :=
  ⟨⟨rfl, rfl, rfl, rfl, by decide⟩,
   (UnsetJob_first_failure_wins.1 Scn.c1s3 Scn.c1wr Scn.c1jr "res" Scn.c1s4
      ["job_run.json"] rfl rfl rfl).1 ⟨rfl, by decide⟩⟩

/-- C3 (counterexample): an `UnsetStep` at stage `pre` does change the
`StepsContext` — the upsert in `UnsetStep` is unconditional, only the file
export is gated on the `main` stage.  Before the call the steps context is
empty; after it, it holds an entry for step `s1` carrying the pre-stage run's
fields. -/
theorem UnsetStep_pre_stage_updates_steps_context :
    Scn.srPre.stage = StepStagePre ∧
    Scn.srPre.stage ≠ StepStageMain ∧
    Scn.s3pre.ctx.steps = [] ∧
    (UnsetStep Scn.s3pre "res").map (fun p => p.1.ctx.steps) =
      some [("s1", ⟨[], "", [("o", "v")], "", ""⟩)] ∧
    ([("s1", (⟨[], "", [("o", "v")], "", ""⟩ : StepContext))] : StepsContext)
      ≠ ([] : StepsContext) :=
  ⟨rfl, by decide, rfl, rfl, by decide⟩

/-- C3 (amended): every `UnsetStep` on an active step run upserts the
`StepsContext` entry for the retiring step's ID with the run's terminal
fields, whatever its stage — `main` gates only the report persistence — and
leaves every other step's entry unchanged. -/
theorem UnsetStep_upserts_steps_context_all_stages :
    ∀ (s : State) (sr : StepRun) (wr : WorkflowRun) (jr : JobRun)
      (r : RunResult) (s' : State) (ws : List String),
      s.ctx.execution.stepRun = some sr →
      s.ctx.execution.workflowRun = some wr →
      s.ctx.execution.jobRun = some jr →
      UnsetStep s r = some (s', ws) →
      alistGet? s'.ctx.steps sr.step.id =
        some ⟨sr.state, sr.summary, sr.outputs, sr.outcome, sr.conclusion⟩ ∧
      ∀ id, id ≠ sr.step.id →
        alistGet? s'.ctx.steps id = alistGet? s.ctx.steps id := by
  intro s sr wr jr r s' ws h1 h2 h3 h4
  simp only [UnsetStep, h1, h2, h3, Option.some.injEq, Prod.mk.injEq] at h4
  obtain ⟨hA, hB⟩ := h4
  subst hA
  constructor
  · exact alistGet?_alistSet_self _ _ _
  · intro id hid
    exact alistGet?_alistSet_ne _ _ _ _ hid

/-- Witness for the amended C3: retiring the concrete `pre`-stage step
installs its terminal fields under its step ID in the steps context. -/
theorem UnsetStep_upserts_steps_context_all_stages_witness :
    (Scn.s3pre.ctx.execution.stepRun = some Scn.srPre ∧
     Scn.s3pre.ctx.execution.workflowRun = some Scn.sWr ∧
     Scn.s3pre.ctx.execution.jobRun = some Scn.jrJ ∧
     UnsetStep Scn.s3pre "res" = some (Scn.s4pre, Scn.s4preW)) ∧
    alistGet? Scn.s4pre.ctx.steps "s1" =
      some ⟨[], "", [("o", "v")], "", ""⟩ :=
  ⟨⟨rfl, rfl, rfl, rfl⟩,
   (UnsetStep_upserts_steps_context_all_stages Scn.s3pre Scn.srPre Scn.sWr
      Scn.jrJ "res" Scn.s4pre Scn.s4preW rfl rfl rfl rfl).1⟩

/-- C8: step-level persistence is gated on the `main` stage.  Retiring a step
at any other stage writes no file; retiring a `main`-stage step writes exactly
the step report `step_run.json`, plus the additional `summary.md` exactly when
the run's summary is non-empty. -/
theorem UnsetStep_persistence_gated_on_main :
    ∀ (s : State) (sr : StepRun) (wr : WorkflowRun) (jr : JobRun)
      (r : RunResult) (s' : State) (ws : List String),
      s.ctx.execution.stepRun = some sr →
      s.ctx.execution.workflowRun = some wr →
      s.ctx.execution.jobRun = some jr →
      UnsetStep s r = some (s', ws) →
      (sr.stage ≠ StepStageMain → ws = []) ∧
      (sr.stage = StepStageMain ∧ sr.summary = "" → ws = ["step_run.json"]) ∧
      (sr.stage = StepStageMain ∧ sr.summary ≠ "" →
         ws = ["step_run.json", "summary.md"]) := by
  intro s sr wr jr r s' ws h1 h2 h3 h4
  simp only [UnsetStep, h1, h2, h3, Option.some.injEq, Prod.mk.injEq] at h4
  obtain ⟨hA, hB⟩ := h4
  subst hB
  refine ⟨?_, ?_, ?_⟩
  · intro hc
    simp [hc]
  · intro hc
    simp [hc.1, hc.2]
  · intro hc
    simp [hc.1, hc.2]

/-- Witness for C8: retiring the concrete `main`-stage step (with an empty
summary) writes exactly the step report. -/
theorem UnsetStep_persistence_gated_on_main_witness :
    (Scn.s3main.ctx.execution.stepRun = some Scn.srMain ∧
     Scn.s3main.ctx.execution.workflowRun = some Scn.sWr ∧
     Scn.s3main.ctx.execution.jobRun = some Scn.jrJ ∧
     UnsetStep Scn.s3main "res" = some (Scn.s4main, Scn.s4mainW) ∧
     Scn.srMain.stage = StepStageMain ∧ Scn.srMain.summary = "") ∧
    Scn.s4mainW = ["step_run.json"] :=
  ⟨⟨rfl, rfl, rfl, rfl, rfl, rfl⟩,
   (UnsetStep_persistence_gated_on_main Scn.s3main Scn.srMain Scn.sWr Scn.jrJ
      "res" Scn.s4main Scn.s4mainW rfl rfl rfl rfl).2.1 ⟨rfl, rfl⟩⟩

/-- C4: the needs context is a snapshot taken at job activation.  Concretely,
after J1 retired with conclusion `success` and outputs `{x:"v"}`, `SetJob` of
a job needing `J1` yields a needs entry `{Result: success, Outputs: {x:"v"}}`;
a later mutation of the stored J1 record (any replacement written the way
every in-source mutation path writes it) leaves the entry unchanged, and no
operation other than `SetJob` ever changes the needs context at all. -/
theorem SetJob_needs_snapshot_immutable :
    ((Scn.c4s4.ctx.execution.workflowRun).map
        (fun wr => alistGet? wr.jobs "J1") =
      some (some ⟨⟨"J1", [], []⟩, [], ConclusionSuccess, ConclusionSuccess,
        [("x", "v")], []⟩)) ∧
    (alistGet? Scn.c4s5.ctx.needs "J1" =
       some ⟨ConclusionSuccess, [("x", "v")]⟩) ∧
    (∀ jr' : JobRun,
       alistGet? (updateStoredJob Scn.c4s5 "J1" jr').ctx.needs "J1" =
         some ⟨ConclusionSuccess, [("x", "v")]⟩) ∧
    (∀ (s : State) (id : String) (jr' : JobRun),
       (updateStoredJob s id jr').ctx.needs = s.ctx.needs) ∧
    (∀ (s : State) (a b : Conclusion) (o : SMap),
       ((SetJobResults s a b o).2).ctx.needs = s.ctx.needs) ∧
    (∀ (s : State) (sr : StepRun),
       ((SetStep s sr).2).ctx.needs = s.ctx.needs) ∧
    (∀ (s : State) (k v : String),
       ((SetStepOutput s k v).2).ctx.needs = s.ctx.needs) ∧
    (∀ (s : State) (r : RunResult) (t : State × List String),
       UnsetStep s r = some t → t.1.ctx.needs = s.ctx.needs) ∧
    (∀ (s : State) (r : RunResult) (t : State × List String),
       UnsetJob s r = some t → t.1.ctx.needs = s.ctx.needs) := by
  refine ⟨rfl, rfl, ?_, ?_, ?_, ?_, ?_, ?_, ?_⟩
  · intro jr'
    simp only [updateStoredJob]
    rfl
  · intro s id jr'
    cases hw : s.ctx.execution.workflowRun <;> simp [updateStoredJob, hw]
  · intro s a b o
    cases hj : s.ctx.execution.jobRun <;> simp [SetJobResults, hj]
  · intro s sr
    cases hj : s.ctx.execution.jobRun <;> simp [SetStep, hj]
  · intro s k v
    cases hs : s.ctx.execution.stepRun <;> simp [SetStepOutput, hs]
  · intro s r t h
    cases hs : s.ctx.execution.stepRun with
    | none =>
      simp only [UnsetStep, hs, Option.some.injEq] at h
      subst h
      rfl
    | some sr =>
      cases hw : s.ctx.execution.workflowRun <;>
        cases hj : s.ctx.execution.jobRun <;>
          simp only [UnsetStep, hs, hw, hj, Option.some.injEq,
            reduceCtorEq] at h
      subst h
      rfl
  · intro s r t h
    cases hj : s.ctx.execution.jobRun <;>
      cases hw : s.ctx.execution.workflowRun <;>
        simp only [UnsetJob, hj, hw, Option.some.injEq, reduceCtorEq] at h
    subst h
    rfl

/-- Witness for C4: retiring the concrete step changes the needs context of
`Scn.s3pre` not at all. -/
theorem SetJob_needs_snapshot_immutable_witness :
    UnsetStep Scn.s3pre "res" = some (Scn.s4pre, Scn.s4preW) ∧
    Scn.s4pre.ctx.needs = Scn.s3pre.ctx.needs :=
  ⟨rfl,
   SetJob_needs_snapshot_immutable.2.2.2.2.2.2.2.1 Scn.s3pre "res"
     (Scn.s4pre, Scn.s4preW) rfl⟩

/-- C7: the variable provider resolves every name outside the recognized set
to an `unknown variable` error naming it, resolves `infinity` to the positive
infinity constant, and resolves each of `env`, `vars` and `strategy` to an
empty mapping. -/
theorem GetVariable_contract :
    (∀ (c : GctxContext) (name : String), name ∉ recognizedNames →
       GetVariable c name = .error ("unknown variable: " ++ name)) ∧
    (∀ c : GctxContext, GetVariable c "infinity" = .ok .infinity) ∧
    (∀ c : GctxContext, GetVariable c "env" = .ok (.strMap [])) ∧
    (∀ c : GctxContext, GetVariable c "vars" = .ok (.strMap [])) ∧
    (∀ c : GctxContext, GetVariable c "strategy" = .ok (.strMap [])) := by
  refine ⟨?_, fun c => rfl, fun c => rfl, fun c => rfl, fun c => rfl⟩
  intro c name h
  simp only [recognizedNames, List.mem_cons, List.not_mem_nil, or_false,
    not_or] at h
  obtain ⟨h1, h2, h3, h4, h5, h6, h7, h8, h9, h10, h11, h12, h13⟩ := h
  simp [GetVariable, h1, h2, h3, h4, h5, h6, h7, h8, h9, h10, h11, h12, h13]

/-- Witness for C7: `bogus` is not a recognized name, and resolving it fails
with the error naming it. -/
theorem GetVariable_contract_witness :
    ("bogus" ∉ recognizedNames) ∧
    GetVariable GctxContext.zero "bogus" =
      .error "unknown variable: bogus" :=
  ⟨by decide, GetVariable_contract.1 GctxContext.zero "bogus" (by decide)⟩
